import Mathlib

/-!
Verification development for the emailgeneration-service repository.

The definitions below are shallow embeddings of the TypeScript source:

* `src/lib/anthropic-client.ts` — `coerceToString`, `substituteVariables`,
  `parseSequenceJson`, `textToHtml`, `generateFromTemplate`;
* `src/routes/generate.ts` — the `POST /generate` handler (`postGenerate`);
* `src/routes/content.ts` — the `POST /generate/content` and
  `POST /generate/calendar` handlers (`postGenerateContent`,
  `postGenerateCalendar`);
* `src/lib/runs-client.ts` — the resilient ledger call client
  (`callWithRetry`), whose implementation file is absent from the
  repository snapshot and is therefore modelled from the specification
  and checked against its unit tests.

External collaborators (database, key store, LLM provider, run/cost
ledger) are modelled as outcome oracles: every call site consults a
dedicated field of an environment record, and the handler emits an
explicit trace of the calls it attempts, in order.  Floating point
fields of the source (`costUsd`) and raw audit payloads (`responseRaw`)
are omitted; no claim mentions them.
-/

/-- A JSON-like runtime value, modelling the `unknown` values the
`variables` map of a generation request may contain. -/
inductive Value where
  | str : String → Value
  | num : Int → Value
  | bool : Bool → Value
  | null : Value
  | arr : List Value → Value
  | obj : List (String × Value) → Value

/-- `typeof value === "string"` of the source. -/
def isPlainString : Value → Bool
  | Value.str _ => true
  | _ => false

/-- One element test used by `Array.isArray(value) && value.every(v => typeof v === "string")`. -/
def isStrValue : Value → Bool
  | Value.str _ => true
  | _ => false

/-- `Array.isArray(value) && value.every(v => typeof v === "string")` of the source. -/
def isAllStringArray : Value → Bool
  | Value.arr l => l.all isStrValue
  | _ => false

/-- Underlying string of a `Value.str`; arbitrary on other constructors
(only applied under an `isStrValue` guard). -/
def strOfValue : Value → String
  | Value.str s => s
  | _ => ""

/-- A lowercase hexadecimal digit (for control-character escapes). -/
def hexDigit (n : Nat) : Char :=
  if n < 10 then Char.ofNat (48 + n) else Char.ofNat (87 + n)

/-- Escape of one character in a JSON string literal, as produced by
`JSON.stringify`: quote, backslash and the named control escapes, and
a four-digit unicode escape for the remaining control characters.
(`Char` is a unicode scalar value, so the lone-surrogate escapes of
`JSON.stringify` cannot arise in this model.) -/
def escapeJsonChar (c : Char) : String :=
  if c = '"' then "\\\""
  else if c = '\\' then "\\\\"
  else if c.toNat = 8 then "\\b"
  else if c.toNat = 12 then "\\f"
  else if c = '\n' then "\\n"
  else if c = '\r' then "\\r"
  else if c = '\t' then "\\t"
  else if c.toNat < 32 then
    "\\u00" ++ String.mk [hexDigit (c.toNat / 16), hexDigit (c.toNat % 16)]
  else String.singleton c

/-- A JSON string literal with quotes, as produced by `JSON.stringify`. -/
def quoteJson (s : String) : String :=
  "\"" ++ String.join (s.data.map escapeJsonChar) ++ "\""

mutual

/-- Model of `JSON.stringify` on `Value` (the branch of `coerceToString`
for values that are neither strings nor all-string arrays). -/
def jsonStringify : Value → String
  | Value.str s => quoteJson s
  | Value.num n => toString n
  | Value.bool b => if b then "true" else "false"
  | Value.null => "null"
  | Value.arr l => "[" ++ jsonStringifyList l ++ "]"
  | Value.obj fs => "\x7b" ++ jsonStringifyFields fs ++ "\x7d"

/-- Comma-joined serialization of a JSON array body. -/
def jsonStringifyList : List Value → String
  | [] => ""
  | [v] => jsonStringify v
  | v :: rest => jsonStringify v ++ "," ++ jsonStringifyList rest

/-- Comma-joined serialization of a JSON object body. -/
def jsonStringifyFields : List (String × Value) → String
  | [] => ""
  | [(k, v)] => quoteJson k ++ ":" ++ jsonStringify v
  | (k, v) :: rest => quoteJson k ++ ":" ++ jsonStringify v ++ "," ++ jsonStringifyFields rest

end

/-- `coerceToString` of `src/lib/anthropic-client.ts`: strings pass
through, arrays whose every element is a string are joined with a comma
and a space, everything else is JSON-stringified. -/
def coerceToString (value : Value) : String :=
  match value with
  | Value.str s => s
  | Value.arr l =>
      if l.all isStrValue then String.intercalate ", " (l.map strOfValue)
      else jsonStringify (Value.arr l)
  | v => jsonStringify v

/-- The dollar sign, which starts the ECMAScript substitution patterns
of a `replace`/`replaceAll` replacement string. -/
def dollarChar : Char := '$'

/-- The ampersand of the matched-text pattern. -/
def ampersandChar : Char := '&'

/-- The backquote of the preceding-text pattern (written by code point). -/
def backquoteChar : Char := Char.ofNat 96

/-- The single quote of the following-text pattern (written by code point). -/
def singleQuoteChar : Char := Char.ofNat 39

/-- ECMAScript `GetSubstitution` for a string search pattern (no
capture groups): a dollar followed by a dollar emits one dollar, by an
ampersand emits the matched text, by a backquote emits the portion of
the original string before the match, by a single quote the portion
after the match; any other text — including a dollar followed by a
digit or by anything else, which has no capture to refer to — is
copied literally.  The `fuel` argument only bounds the recursion
(each step consumes at least one character of the template, so its
length is always enough fuel). -/
def getSubstitutionGo (matched strBefore strAfter : List Char) :
    Nat → List Char → List Char
  | _, [] => []
  | 0, t => t
  | fuel + 1, c :: rest =>
    if c = dollarChar then
      match rest with
      | [] => [c]
      | c2 :: rest2 =>
        if c2 = dollarChar then
          dollarChar :: getSubstitutionGo matched strBefore strAfter fuel rest2
        else if c2 = ampersandChar then
          matched ++ getSubstitutionGo matched strBefore strAfter fuel rest2
        else if c2 = backquoteChar then
          strBefore ++ getSubstitutionGo matched strBefore strAfter fuel rest2
        else if c2 = singleQuoteChar then
          strAfter ++ getSubstitutionGo matched strBefore strAfter fuel rest2
        else
          c :: getSubstitutionGo matched strBefore strAfter fuel rest
    else
      c :: getSubstitutionGo matched strBefore strAfter fuel rest

/-- `GetSubstitution` applied to a whole replacement template. -/
def getSubstitution (matched strBefore strAfter template : List Char) : List Char :=
  getSubstitutionGo matched strBefore strAfter template.length template

/-- Character-level model of the JavaScript
`String.prototype.replaceAll` with a string pattern: scan left to
right, on a match emit the `GetSubstitution`-processed replacement
(substitution patterns see the original string and the match position)
and continue after the matched text, otherwise emit one character and
advance.  The `fuel` argument only bounds the recursion (each step
consumes at least one character, so `s.length` fuel is always enough);
it keeps the definition structurally recursive so that concrete inputs
evaluate.  `pos` is the index of the remaining text in the original
string `orig`. -/
def replaceAllCharsGo (orig pat rep : List Char) : Nat → Nat → List Char → List Char
  | _, _, [] => []
  | _, 0, s => s
  | pos, fuel + 1, c :: rest =>
    if pat ≠ [] ∧ pat.isPrefixOf (c :: rest) then
      getSubstitution pat (orig.take pos) (orig.drop (pos + pat.length)) rep ++
        replaceAllCharsGo orig pat rep (pos + pat.length) fuel ((c :: rest).drop pat.length)
    else
      c :: replaceAllCharsGo orig pat rep (pos + 1) fuel rest

/-- Character-level `replaceAll`. -/
def replaceAllChars (s pat rep : List Char) : List Char :=
  replaceAllCharsGo s pat rep 0 s.length s

/-- String-level `replaceAll`. -/
def replaceAll (s pat rep : String) : String :=
  String.mk (replaceAllChars s.data pat.data rep.data)

/-- Whether `pat` occurs as a contiguous sublist of `s`. -/
def containsSub (s pat : List Char) : Bool :=
  match s with
  | [] => pat.isEmpty
  | c :: rest => pat.isPrefixOf (c :: rest) || containsSub rest pat

/-- Whether the string `pat` occurs inside `s`. -/
def occursIn (s pat : String) : Bool :=
  containsSub s.data pat.data

/-- The literal placeholder text searched for a variable name:
two opening braces, the name, two closing braces. -/
def placeholderOf (key : String) : String :=
  "\x7b\x7b" ++ key ++ "\x7d\x7d"

/-- `substituteVariables` of `src/lib/anthropic-client.ts`: a sequential
fold over the entries of the variable mapping in enumeration order,
each step replacing all occurrences of that entry's placeholder with
its coerced value. -/
def substituteVariables (template : String) (vars : List (String × Value)) : String :=
  vars.foldl
    (fun result kv => replaceAll result (placeholderOf kv.1) (coerceToString kv.2))
    template

/-- Whitespace test used to model the JavaScript `String.prototype.trim`. -/
def isJsWhitespace (c : Char) : Bool :=
  c = ' ' || c = '\n' || c = '\t' || c = '\r'

/-- Model of the JavaScript `String.prototype.trim`. -/
def trimString (s : String) : String :=
  String.mk (((s.data.dropWhile isJsWhitespace).reverse.dropWhile isJsWhitespace).reverse)

/-- Character-level split on a separator, modelling the JavaScript
`String.prototype.split` with a string separator; the `fuel` argument
only bounds the recursion (`s.length` is always enough). -/
def splitOnCharsGo (sep : List Char) : Nat → List Char → List (List Char)
  | _, [] => [[]]
  | 0, s => [s]
  | fuel + 1, c :: rest =>
    if sep ≠ [] ∧ sep.isPrefixOf (c :: rest) then
      [] :: splitOnCharsGo sep fuel ((c :: rest).drop sep.length)
    else
      match splitOnCharsGo sep fuel rest with
      | [] => [[c]]
      | t :: ts => (c :: t) :: ts

/-- Character-level split. -/
def splitOnChars (s sep : List Char) : List (List Char) :=
  splitOnCharsGo sep s.length s

/-- String-level split. -/
def splitOnStr (s sep : String) : List String :=
  (splitOnChars s.data sep.data).map String.mk

/-- `textToHtml` of `src/lib/anthropic-client.ts`: split on blank lines
into paragraphs, replace single newlines by line-break tags, wrap each
paragraph in paragraph tags, and join. -/
def textToHtml (text : String) : String :=
  String.join ((splitOnStr text "\n\n").map
    (fun p => "<p>" ++ replaceAll p "\n" "<br>" ++ "</p>"))

/-- One step of a generated email sequence
(`SequenceStep` of `src/lib/anthropic-client.ts`). -/
structure SequenceStep where
  step : Nat
  bodyHtml : String
  bodyText : String
  daysSinceLastStep : Nat
deriving DecidableEq, Repr

/-- The structured provider reply enforced by the JSON schema sent with
the request (`EMAIL_SEQUENCE_JSON_SCHEMA`): `subject`, `body`,
`followup1`, `followup2`, all strings. -/
structure SequenceReply where
  subject : String
  body : String
  followup1 : String
  followup2 : String
deriving DecidableEq, Repr

/-- `parseSequenceJson` of `src/lib/anthropic-client.ts`: maps the
reply fields `body`, `followup1`, `followup2`, in order, to steps 1, 2,
3 with `daysSinceLastStep` 0, 3, 7. -/
def parseSequenceJson (json : SequenceReply) : String × List SequenceStep :=
  let bodies : List (String × Nat) :=
    [(json.body, 0), (json.followup1, 3), (json.followup2, 7)]
  let sequence : List SequenceStep :=
    bodies.enum.map (fun p =>
      let bodyText := trimString p.2.1
      { step := p.1 + 1
        bodyHtml := textToHtml bodyText
        bodyText := bodyText
        daysSinceLastStep := p.2.2 })
  (json.subject, sequence)

/-- A provider response: the schema-constrained reply plus token usage
(`response.usage.input_tokens` / `output_tokens`). -/
structure ProviderResponse where
  reply : SequenceReply
  inputTokens : Nat
  outputTokens : Nat
deriving DecidableEq, Repr

/-- Result of a template generation (`GenerateResult` of
`src/lib/anthropic-client.ts`; the floating point `costUsd` and the raw
`responseRaw` payload are omitted). -/
structure GenerateResult where
  subject : String
  sequence : List SequenceStep
  tokensInput : Nat
  tokensOutput : Nat
  promptRaw : String
deriving DecidableEq, Repr

/-- `generateFromTemplate` of `src/lib/anthropic-client.ts`, with the
provider network call abstracted into the `resp` argument: substitute
the variables into the template, send it, and parse the structured
reply into a subject plus a 3-step sequence. -/
def generateFromTemplate (_apiKey : String) (promptTemplate : String)
    (vars : List (String × Value)) (resp : ProviderResponse) : GenerateResult :=
  let prompt := substituteVariables promptTemplate vars
  let parsed := parseSequenceJson resp.reply
  { subject := parsed.1
    sequence := parsed.2
    tokensInput := resp.inputTokens
    tokensOutput := resp.outputTokens
    promptRaw := prompt }

/-- One cost line item sent to `addCosts` (`costName` plus a raw token
quantity, never a dollar amount). -/
structure CostItem where
  costName : String
  quantity : Nat
deriving DecidableEq, Repr

/-- An external call attempted by a route handler, in the order the
handler performs them.  `logCostTrackingError` is the error-severity
log entry written by the catch block of the best-effort ledger policy. -/
inductive Call where
  | dbIdempotencyLookup
  | dbPromptLookup
  | fetchKey
  | llmCall
  | dbInsert
  | ledgerCreateRun
  | dbLinkRun
  | ledgerAddCosts (items : List CostItem)
  | ledgerUpdateRun
  | logCostTrackingError
deriving DecidableEq, Repr

/-- Calls against the run/cost ledger (`createRun`, `addCosts`,
`updateRun` of `src/lib/runs-client.ts`). -/
def isLedgerCall : Call → Bool
  | Call.ledgerCreateRun => true
  | Call.ledgerAddCosts _ => true
  | Call.ledgerUpdateRun => true
  | _ => false

/-- The generation record insert. -/
def isInsertCall : Call → Bool
  | Call.dbInsert => true
  | _ => false

/-- The `createRun` ledger call. -/
def isCreateRunCall : Call → Bool
  | Call.ledgerCreateRun => true
  | _ => false

/-- The cost-reporting ledger calls (`addCosts`, `updateRun`). -/
def isCostReportCall : Call → Bool
  | Call.ledgerAddCosts _ => true
  | Call.ledgerUpdateRun => true
  | _ => false

/-- Scans a trace and checks that no ledger call is attempted before
the first generation record insert. -/
def ledgerOnlyAfterInsert : List Call → Bool
  | [] => true
  | a :: rest =>
    if isInsertCall a then true
    else (!isLedgerCall a) && ledgerOnlyAfterInsert rest

/-- Scans a trace and checks that no generation record insert is
attempted before the first `createRun` ledger call. -/
def insertOnlyAfterCreateRun : List Call → Bool
  | [] => true
  | a :: rest =>
    if isCreateRunCall a then true
    else (!isInsertCall a) && insertOnlyAfterCreateRun rest

/-- Scans a trace and checks that no cost-reporting ledger call is
attempted before the first generation record insert. -/
def costsOnlyAfterInsert : List Call → Bool
  | [] => true
  | a :: rest =>
    if isInsertCall a then true
    else (!isCostReportCall a) && costsOnlyAfterInsert rest

/-- Whether an external call outcome is a thrown error. -/
def exceptFailed : Except String α → Bool
  | Except.error _ => true
  | Except.ok _ => false

/-- An HTTP response of a route handler.  Request validation (the 400
path) happens before the embedded logic and is out of scope. -/
inductive HttpResponse (β : Type) where
  | ok (body : β)
  | notFound (error : String)
  | serverError (error : String)
deriving DecidableEq

/-- A stored `email_generations` row as read back by the idempotency
lookup: the output columns are all nullable (audit columns are
omitted). -/
structure StoredEmailGeneration where
  id : String
  subject : Option String
  sequence : Option (List SequenceStep)
  tokensInput : Option Nat
  tokensOutput : Option Nat
deriving DecidableEq, Repr

/-- The row inserted by `POST /generate`, restricted to the fields the
claims mention; `generationRunId` starts out null and is the one field
mutated after the insert (the run link-back). -/
structure InsertedEmailRecord where
  id : String
  subject : String
  sequence : List SequenceStep
  tokensInput : Nat
  tokensOutput : Nat
  idempotencyKey : Option String
  generationRunId : Option String
deriving DecidableEq, Repr

/-- Success body of `POST /generate`. -/
structure GenerateResponseBody where
  id : String
  subject : String
  sequence : List SequenceStep
  tokensInput : Nat
  tokensOutput : Nat
deriving DecidableEq, Repr

/-- The parsed `POST /generate` request (fields the embedded logic
reads; tracking-only fields are omitted). -/
structure GenerateReq where
  appId : String
  type : String
  vars : List (String × Value)
  runId : String
  idempotencyKey : Option String

/-- Outcomes of the external calls a `POST /generate` request may
perform, one field per call site.  An `Except.error` models the
corresponding `await` throwing. -/
structure GenEnv where
  idemLookup : Except String (Option StoredEmailGeneration)
  promptLookup : Except String (Option String)
  keyFetch : Except String String
  llm : Except String ProviderResponse
  insert : Except String String
  createRun : Except String String
  linkRun : Except String Unit
  addCosts : Except String Unit
  updateRun : Except String Unit

/-- What a `POST /generate` request leaves behind: the ordered trace of
attempted external calls, the HTTP response, and the final state of the
generation record this request inserted (if any). -/
structure GenerateOutcome where
  trace : List Call
  response : HttpResponse GenerateResponseBody
  record : Option InsertedEmailRecord
deriving DecidableEq

/-- The cost line items built by the `POST /generate` handler: one item
per non-zero token count, named for the provider/model pair and
direction, quantity the raw token count (`if (result.tokensInput) ...`
uses JavaScript truthiness, so a zero count adds no item). -/
def generateCostItems (tokensInput tokensOutput : Nat) : List CostItem :=
  (if tokensInput ≠ 0 then
    [{ costName := "anthropic-sonnet-4.6-tokens-input", quantity := tokensInput }] else []) ++
  (if tokensOutput ≠ 0 then
    [{ costName := "anthropic-sonnet-4.6-tokens-output", quantity := tokensOutput }] else [])

/-- The try/catch ledger block of the `POST /generate` handler
(`src/routes/generate.ts`): create the run, immediately link the run id
onto the already-inserted record, report costs (skipped when there are
no items), mark the run complete; any throw is caught and logged at
error severity without failing the request. -/
def ledgerPhase (env : GenEnv) (tokensInput tokensOutput : Nat)
    (record : InsertedEmailRecord) : List Call × InsertedEmailRecord :=
  match env.createRun with
  | Except.error _ =>
      ([Call.ledgerCreateRun, Call.logCostTrackingError], record)
  | Except.ok runId =>
    match env.linkRun with
    | Except.error _ =>
        ([Call.ledgerCreateRun, Call.dbLinkRun, Call.logCostTrackingError], record)
    | Except.ok _ =>
      let record := { record with generationRunId := some runId }
      let items := generateCostItems tokensInput tokensOutput
      if items.isEmpty then
        match env.updateRun with
        | Except.error _ =>
            ([Call.ledgerCreateRun, Call.dbLinkRun, Call.ledgerUpdateRun,
              Call.logCostTrackingError], record)
        | Except.ok _ =>
            ([Call.ledgerCreateRun, Call.dbLinkRun, Call.ledgerUpdateRun], record)
      else
        match env.addCosts with
        | Except.error _ =>
            ([Call.ledgerCreateRun, Call.dbLinkRun, Call.ledgerAddCosts items,
              Call.logCostTrackingError], record)
        | Except.ok _ =>
          match env.updateRun with
          | Except.error _ =>
              ([Call.ledgerCreateRun, Call.dbLinkRun, Call.ledgerAddCosts items,
                Call.ledgerUpdateRun, Call.logCostTrackingError], record)
          | Except.ok _ =>
              ([Call.ledgerCreateRun, Call.dbLinkRun, Call.ledgerAddCosts items,
                Call.ledgerUpdateRun], record)

/-- The `POST /generate` handler after the idempotency check
(`src/routes/generate.ts`): stored prompt lookup (404 when absent), key
fetch, LLM generation, record insert — each throw becoming a 500 — then
the best-effort ledger phase, then the 200 response with the generated
content. -/
def generateCore (req : GenerateReq) (env : GenEnv) : GenerateOutcome :=
  match env.promptLookup with
  | Except.error e => ⟨[Call.dbPromptLookup], HttpResponse.serverError e, none⟩
  | Except.ok none =>
      ⟨[Call.dbPromptLookup],
       HttpResponse.notFound ("No prompt found for appId=" ++ req.appId ++ ", type=" ++
         req.type ++ ". Register one via PUT /prompts first."), none⟩
  | Except.ok (some tpl) =>
    match env.keyFetch with
    | Except.error e =>
        ⟨[Call.dbPromptLookup, Call.fetchKey], HttpResponse.serverError e, none⟩
    | Except.ok apiKey =>
      match env.llm with
      | Except.error e =>
          ⟨[Call.dbPromptLookup, Call.fetchKey, Call.llmCall],
           HttpResponse.serverError e, none⟩
      | Except.ok resp =>
        let result := generateFromTemplate apiKey tpl req.vars resp
        match env.insert with
        | Except.error e =>
            ⟨[Call.dbPromptLookup, Call.fetchKey, Call.llmCall, Call.dbInsert],
             HttpResponse.serverError e, none⟩
        | Except.ok genId =>
          let record : InsertedEmailRecord :=
            { id := genId, subject := result.subject, sequence := result.sequence
              tokensInput := result.tokensInput, tokensOutput := result.tokensOutput
              idempotencyKey := req.idempotencyKey, generationRunId := none }
          let led := ledgerPhase env result.tokensInput result.tokensOutput record
          ⟨[Call.dbPromptLookup, Call.fetchKey, Call.llmCall, Call.dbInsert] ++ led.1,
           HttpResponse.ok
             { id := genId, subject := result.subject, sequence := result.sequence
               tokensInput := result.tokensInput, tokensOutput := result.tokensOutput },
           some led.2⟩

/-- The `POST /generate` handler (`src/routes/generate.ts`): when an
idempotency key is supplied, look up a prior record for this
organization and return its stored fields (null columns defaulted)
without any further work; otherwise run the generation pipeline. -/
def postGenerate (req : GenerateReq) (env : GenEnv) : GenerateOutcome :=
  match req.idempotencyKey with
  | some _ =>
    match env.idemLookup with
    | Except.error e => ⟨[Call.dbIdempotencyLookup], HttpResponse.serverError e, none⟩
    | Except.ok (some existing) =>
        ⟨[Call.dbIdempotencyLookup],
         HttpResponse.ok
           { id := existing.id
             subject := existing.subject.getD ""
             sequence := existing.sequence.getD []
             tokensInput := existing.tokensInput.getD 0
             tokensOutput := existing.tokensOutput.getD 0 },
         none⟩
    | Except.ok none =>
        let r := generateCore req env
        ⟨Call.dbIdempotencyLookup :: r.trace, r.response, r.record⟩
  | none => generateCore req env

/-- Result of `generateContent` of `src/lib/content-client.ts`
(the provider call and reply parsing abstracted into an outcome). -/
structure ContentResult where
  subject : String
  bodyHtml : String
  bodyText : String
  tokensInput : Nat
  tokensOutput : Nat
deriving DecidableEq, Repr

/-- Success body of `POST /generate/content`. -/
structure ContentResponseBody where
  id : String
  subject : String
  bodyHtml : String
  bodyText : String
  tokensInput : Nat
  tokensOutput : Nat
deriving DecidableEq, Repr

/-- The parsed `POST /generate/content` request (fields the embedded
logic reads). -/
structure ContentReq where
  appId : String
  prompt : String

/-- Outcomes of the external calls a `POST /generate/content` request
may perform. -/
structure ContentEnv where
  keyFetch : Except String String
  llm : Except String ContentResult
  createRun : Except String String
  insert : Except String String
  addCosts : Except String Unit
  updateRun : Except String Unit

/-- What a `POST /generate/content` request leaves behind. -/
structure ContentOutcome where
  trace : List Call
  response : HttpResponse ContentResponseBody
deriving DecidableEq

/-- The cost line items built by the content/calendar handlers: same
shape as `generateCostItems` but named for the opus model. -/
def contentCostItems (tokensInput tokensOutput : Nat) : List CostItem :=
  (if tokensInput ≠ 0 then
    [{ costName := "anthropic-opus-4.6-tokens-input", quantity := tokensInput }] else []) ++
  (if tokensOutput ≠ 0 then
    [{ costName := "anthropic-opus-4.6-tokens-output", quantity := tokensOutput }] else [])

/-- The `POST /generate/content` handler (`src/routes/content.ts`):
key fetch, LLM generation, `createRun` (before the record insert, and
it must succeed or the request fails), record insert, cost report
(skipped when there are no items), run completion — a throw anywhere
becomes a 500 via the surrounding catch (strict ledger policy). -/
def postGenerateContent (_req : ContentReq) (env : ContentEnv) : ContentOutcome :=
  match env.keyFetch with
  | Except.error e => ⟨[Call.fetchKey], HttpResponse.serverError e⟩
  | Except.ok _ =>
    match env.llm with
    | Except.error e => ⟨[Call.fetchKey, Call.llmCall], HttpResponse.serverError e⟩
    | Except.ok result =>
      match env.createRun with
      | Except.error e =>
          ⟨[Call.fetchKey, Call.llmCall, Call.ledgerCreateRun], HttpResponse.serverError e⟩
      | Except.ok _runId =>
        match env.insert with
        | Except.error e =>
            ⟨[Call.fetchKey, Call.llmCall, Call.ledgerCreateRun, Call.dbInsert],
             HttpResponse.serverError e⟩
        | Except.ok genId =>
          let items := contentCostItems result.tokensInput result.tokensOutput
          let body : ContentResponseBody :=
            { id := genId, subject := result.subject, bodyHtml := result.bodyHtml
              bodyText := result.bodyText, tokensInput := result.tokensInput
              tokensOutput := result.tokensOutput }
          if items.isEmpty then
            match env.updateRun with
            | Except.error e =>
                ⟨[Call.fetchKey, Call.llmCall, Call.ledgerCreateRun, Call.dbInsert,
                  Call.ledgerUpdateRun], HttpResponse.serverError e⟩
            | Except.ok _ =>
                ⟨[Call.fetchKey, Call.llmCall, Call.ledgerCreateRun, Call.dbInsert,
                  Call.ledgerUpdateRun], HttpResponse.ok body⟩
          else
            match env.addCosts with
            | Except.error e =>
                ⟨[Call.fetchKey, Call.llmCall, Call.ledgerCreateRun, Call.dbInsert,
                  Call.ledgerAddCosts items], HttpResponse.serverError e⟩
            | Except.ok _ =>
              match env.updateRun with
              | Except.error e =>
                  ⟨[Call.fetchKey, Call.llmCall, Call.ledgerCreateRun, Call.dbInsert,
                    Call.ledgerAddCosts items, Call.ledgerUpdateRun],
                   HttpResponse.serverError e⟩
              | Except.ok _ =>
                  ⟨[Call.fetchKey, Call.llmCall, Call.ledgerCreateRun, Call.dbInsert,
                    Call.ledgerAddCosts items, Call.ledgerUpdateRun],
                   HttpResponse.ok body⟩

/-- Result of `generateCalendar` of `src/lib/content-client.ts`. -/
structure CalendarResult where
  title : String
  description : String
  location : Option String
  tokensInput : Nat
  tokensOutput : Nat
deriving DecidableEq, Repr

/-- Success body of `POST /generate/calendar`. -/
structure CalendarResponseBody where
  id : String
  title : String
  description : String
  location : Option String
  tokensInput : Nat
  tokensOutput : Nat
deriving DecidableEq, Repr

/-- The parsed `POST /generate/calendar` request. -/
structure CalendarReq where
  appId : String
  prompt : String

/-- Outcomes of the external calls a `POST /generate/calendar` request
may perform. -/
structure CalendarEnv where
  keyFetch : Except String String
  llm : Except String CalendarResult
  createRun : Except String String
  insert : Except String String
  addCosts : Except String Unit
  updateRun : Except String Unit

/-- What a `POST /generate/calendar` request leaves behind. -/
structure CalendarOutcome where
  trace : List Call
  response : HttpResponse CalendarResponseBody
deriving DecidableEq

/-- The `POST /generate/calendar` handler (`src/routes/content.ts`):
structurally identical to the content handler, with calendar fields and
the same strict ledger policy. -/
def postGenerateCalendar (_req : CalendarReq) (env : CalendarEnv) : CalendarOutcome :=
  match env.keyFetch with
  | Except.error e => ⟨[Call.fetchKey], HttpResponse.serverError e⟩
  | Except.ok _ =>
    match env.llm with
    | Except.error e => ⟨[Call.fetchKey, Call.llmCall], HttpResponse.serverError e⟩
    | Except.ok result =>
      match env.createRun with
      | Except.error e =>
          ⟨[Call.fetchKey, Call.llmCall, Call.ledgerCreateRun], HttpResponse.serverError e⟩
      | Except.ok _runId =>
        match env.insert with
        | Except.error e =>
            ⟨[Call.fetchKey, Call.llmCall, Call.ledgerCreateRun, Call.dbInsert],
             HttpResponse.serverError e⟩
        | Except.ok genId =>
          let items := contentCostItems result.tokensInput result.tokensOutput
          let body : CalendarResponseBody :=
            { id := genId, title := result.title, description := result.description
              location := result.location, tokensInput := result.tokensInput
              tokensOutput := result.tokensOutput }
          if items.isEmpty then
            match env.updateRun with
            | Except.error e =>
                ⟨[Call.fetchKey, Call.llmCall, Call.ledgerCreateRun, Call.dbInsert,
                  Call.ledgerUpdateRun], HttpResponse.serverError e⟩
            | Except.ok _ =>
                ⟨[Call.fetchKey, Call.llmCall, Call.ledgerCreateRun, Call.dbInsert,
                  Call.ledgerUpdateRun], HttpResponse.ok body⟩
          else
            match env.addCosts with
            | Except.error e =>
                ⟨[Call.fetchKey, Call.llmCall, Call.ledgerCreateRun, Call.dbInsert,
                  Call.ledgerAddCosts items], HttpResponse.serverError e⟩
            | Except.ok _ =>
              match env.updateRun with
              | Except.error e =>
                  ⟨[Call.fetchKey, Call.llmCall, Call.ledgerCreateRun, Call.dbInsert,
                    Call.ledgerAddCosts items, Call.ledgerUpdateRun],
                   HttpResponse.serverError e⟩
              | Except.ok _ =>
                  ⟨[Call.fetchKey, Call.llmCall, Call.ledgerCreateRun, Call.dbInsert,
                    Call.ledgerAddCosts items, Call.ledgerUpdateRun],
                   HttpResponse.ok body⟩

/-- Modelled from the spec: the routes import `createRun`, `updateRun`,
`addCosts` from `src/lib/runs-client.ts`, but that file is not present
in the repository snapshot (only its unit tests are).  Per the spec, a
response status is retryable when it is 502, 503, 504, or any 5xx. -/
def retryableStatus (status : Nat) : Bool :=
  status == 502 || status == 503 || status == 504 || (500 ≤ status && status < 600)

/-- A 2xx success status. -/
def isSuccessStatus (status : Nat) : Bool :=
  200 ≤ status && status < 300

/-- Modelled from the spec: the warning logged before each retry,
stating the attempt number and the retry limit (the unit tests expect a
substring of the form `Retry 1/3`). -/
def retryWarningMsg (attempt limit : Nat) : String :=
  "[runs-client] Retry " ++ toString attempt ++ "/" ++ toString limit ++
    " after retryable status"

/-- Modelled from the spec: the error raised after a non-retryable
status or after exhausting retries names the HTTP method, the path, and
the final status code (message shape taken from the unit tests). -/
def ledgerErrorMsg (method path : String) (status : Nat) : String :=
  "runs-service " ++ method ++ " " ++ path ++ " failed: " ++ toString status

/-- Modelled from the spec: exponential backoff delay (milliseconds)
before the retry with the given zero-based index. -/
def retryDelayMs (retryIndex : Nat) : Nat :=
  500 * 2 ^ retryIndex

/-- Decidable equality for call outcomes. -/
instance exceptDecidableEq {ε α : Type} [DecidableEq ε] [DecidableEq α] :
    DecidableEq (Except ε α) := fun x y =>
  match x, y with
  | Except.ok a, Except.ok b =>
      if h : a = b then isTrue (by rw [h])
      else isFalse (by intro hc; cases hc; exact h rfl)
  | Except.error a, Except.error b =>
      if h : a = b then isTrue (by rw [h])
      else isFalse (by intro hc; cases hc; exact h rfl)
  | Except.ok _, Except.error _ => isFalse (by intro hc; cases hc)
  | Except.error _, Except.ok _ => isFalse (by intro hc; cases hc)

/-- Observable outcome of one resilient ledger call: total attempts
made, warnings logged (in order), backoff delays waited (in order), and
the final result. -/
structure RetryOutcome where
  attempts : Nat
  warnings : List String
  delays : List Nat
  result : Except String Unit
deriving DecidableEq, Repr

/-- Modelled from the spec: the retry loop of the shared resilient
ledger client.  `responses` gives the status returned by the ledger at
each zero-based attempt index; `remaining` counts the retries still
allowed (3 at the start, for 4 attempts in total). -/
def retryLoop (method path : String) (responses : Nat → Nat) :
    Nat → Nat → RetryOutcome
  | i, remaining =>
    let status := responses i
    if isSuccessStatus status then
      ⟨i + 1, [], [], Except.ok ()⟩
    else if retryableStatus status then
      match remaining with
      | 0 => ⟨i + 1, [], [], Except.error (ledgerErrorMsg method path status)⟩
      | r + 1 =>
        let rest := retryLoop method path responses (i + 1) r
        ⟨rest.attempts, retryWarningMsg (i + 1) 3 :: rest.warnings,
         retryDelayMs i :: rest.delays, rest.result⟩
    else
      ⟨i + 1, [], [], Except.error (ledgerErrorMsg method path status)⟩

/-- Modelled from the spec: one HTTP call against the run/cost ledger
through the shared resilient client — up to 3 retries after the first
attempt, retrying only on retryable statuses. -/
def callWithRetry (method path : String) (responses : Nat → Nat) : RetryOutcome :=
  retryLoop method path responses 0 3

/-- A concrete provider reply used by concrete evaluations. -/
def sampleReply : SequenceReply :=
  { subject := "Quick question", body := "Hey Sarah, first note."
    followup1 := "Hey Sarah, circling back.", followup2 := "Hey Sarah, last try." }

/-- A concrete provider response. -/
def sampleResp : ProviderResponse :=
  { reply := sampleReply, inputTokens := 1500, outputTokens := 300 }

/-- A concrete `POST /generate` request without an idempotency key. -/
def sampleGenReq : GenerateReq :=
  { appId := "app-1", type := "email", vars := [], runId := "run-parent-123"
    idempotencyKey := none }

/-- The same request with an idempotency key. -/
def sampleGenReqIdem : GenerateReq :=
  { sampleGenReq with idempotencyKey := some "idem-key-1" }

/-- A stored generation row whose nullable output columns are all null. -/
def sampleStoredNulls : StoredEmailGeneration :=
  { id := "gen-0", subject := none, sequence := none, tokensInput := none
    tokensOutput := none }

/-- An environment where every external call of `POST /generate` succeeds. -/
def okGenEnv : GenEnv :=
  { idemLookup := Except.ok none
    promptLookup := Except.ok (some "Write to \x7b\x7bname\x7d\x7d")
    keyFetch := Except.ok "sk-1"
    llm := Except.ok sampleResp
    insert := Except.ok "gen-789"
    createRun := Except.ok "run-456"
    linkRun := Except.ok ()
    addCosts := Except.ok ()
    updateRun := Except.ok () }

/-- A concrete `POST /generate/content` request. -/
def sampleContentReq : ContentReq :=
  { appId := "app-1", prompt := "Write a promo email" }

/-- A concrete content generation result. -/
def sampleContentResult : ContentResult :=
  { subject := "Subj", bodyHtml := "<p>b</p>", bodyText := "b"
    tokensInput := 1500, tokensOutput := 300 }

/-- An environment where every external call of `POST /generate/content`
succeeds. -/
def okContentEnv : ContentEnv :=
  { keyFetch := Except.ok "sk-1"
    llm := Except.ok sampleContentResult
    createRun := Except.ok "run-456"
    insert := Except.ok "gen-789"
    addCosts := Except.ok ()
    updateRun := Except.ok () }

/-- A concrete `POST /generate/calendar` request. -/
def sampleCalReq : CalendarReq :=
  { appId := "app-1", prompt := "Team offsite next friday" }

/-- A concrete calendar generation result. -/
def sampleCalResult : CalendarResult :=
  { title := "Team offsite", description := "A day together", location := none
    tokensInput := 120, tokensOutput := 60 }

/-- An environment where every external call of `POST /generate/calendar`
succeeds. -/
def okCalendarEnv : CalendarEnv :=
  { keyFetch := Except.ok "sk-1"
    llm := Except.ok sampleCalResult
    createRun := Except.ok "run-456"
    insert := Except.ok "gen-789"
    addCosts := Except.ok ()
    updateRun := Except.ok () }

/-- Claim C1, counterexample: at a concrete provider reply, the three
sequence steps built by the code carry `daysSinceLastStep` values
`0, 3, 7` — not `0, 3, 10` as the claim states. -/
theorem c1_counterexample :
    ((generateFromTemplate "sk-1" "tpl" [] ⟨⟨"s", "b", "f1", "f2"⟩, 1, 2⟩).sequence.map
        SequenceStep.daysSinceLastStep = [0, 3, 7]) ∧
    (generateFromTemplate "sk-1" "tpl" [] ⟨⟨"s", "b", "f1", "f2"⟩, 1, 2⟩).sequence.map
        SequenceStep.daysSinceLastStep ≠ [0, 3, 10] := by
  exact ⟨rfl, by decide⟩

/-- Claim C1 (amended): for every successful 3-step sequence generation
via `generateFromTemplate`, the provider reply fields `body`,
`followup1` and `followup2` are mapped, in order, to sequence steps 1,
2 and 3 whose `daysSinceLastStep` values are 0, 3 and 7 respectively. -/
theorem c1_sequence_construction (apiKey tpl : String) (vars : List (String × Value))
    (resp : ProviderResponse) :
    (generateFromTemplate apiKey tpl vars resp).sequence.map
        (fun s => (s.step, s.bodyText, s.daysSinceLastStep)) =
      [(1, trimString resp.reply.body, 0),
       (2, trimString resp.reply.followup1, 3),
       (3, trimString resp.reply.followup2, 7)] := rfl

/-- Claim C9: template substitution is a sequential fold over the
mapping entries in enumeration order; a coerced value substituted for
an earlier key can inject the placeholder of a later key, which is then
also replaced, so the result can differ from simultaneous replacement
and can depend on entry order. -/
theorem c9_sequential_fold :
    (∀ t k v rest, substituteVariables t ((k, v) :: rest) =
        substituteVariables (replaceAll t (placeholderOf k) (coerceToString v)) rest) ∧
    substituteVariables "\x7b\x7ba\x7d\x7d"
        [("a", Value.str "\x7b\x7bb\x7d\x7d"), ("b", Value.str "X")] = "X" ∧
    substituteVariables "\x7b\x7ba\x7d\x7d"
        [("b", Value.str "X"), ("a", Value.str "\x7b\x7bb\x7d\x7d")] = "\x7b\x7bb\x7d\x7d" ∧
    substituteVariables "\x7b\x7ba\x7d\x7d"
        [("a", Value.str "\x7b\x7bb\x7d\x7d"), ("b", Value.str "X")] ≠
      substituteVariables "\x7b\x7ba\x7d\x7d"
        [("b", Value.str "X"), ("a", Value.str "\x7b\x7bb\x7d\x7d")] := by
  refine ⟨fun t k v rest => rfl, by decide, by decide, by decide⟩

/-- If the pattern does not occur in the scanned text, the scan leaves
the text unchanged, whatever the fuel. -/
theorem replaceAllCharsGo_of_not_contains (orig pat rep : List Char) :
    ∀ fuel pos s, containsSub s pat = false →
      replaceAllCharsGo orig pat rep pos fuel s = s := by
  intro fuel
  induction fuel with
  | zero =>
    intro pos s h
    cases s with
    | nil => rfl
    | cons c rest => rfl
  | succ n ih =>
    intro pos s h
    cases s with
    | nil => rfl
    | cons c rest =>
      simp only [containsSub, Bool.or_eq_false_iff] at h
      rw [replaceAllCharsGo, if_neg]
      · rw [ih (pos + 1) rest h.2]
      · rintro ⟨-, hpre⟩
        rw [h.1] at hpre
        exact Bool.false_ne_true hpre

/-- String-level form: `replaceAll` is the identity when the pattern
does not occur. -/
theorem replaceAll_of_not_occurs (s pat rep : String) (h : occursIn s pat = false) :
    replaceAll s pat rep = s := by
  unfold replaceAll replaceAllChars
  rw [replaceAllCharsGo_of_not_contains s.data pat.data rep.data s.data.length 0 s.data h]

/-- Substitution leaves a template unchanged when none of the mapped
placeholders occurs in it. -/
theorem substituteVariables_of_no_placeholder (t : String) :
    ∀ vars : List (String × Value),
      vars.all (fun kv => !(occursIn t (placeholderOf kv.1))) = true →
      substituteVariables t vars = t := by
  intro vars
  induction vars with
  | nil => intro _; rfl
  | cons kv rest ih =>
    intro h
    simp only [List.all_cons, Bool.and_eq_true, Bool.not_eq_true'] at h
    show substituteVariables (replaceAll t (placeholderOf kv.1) (coerceToString kv.2)) rest = t
    rw [replaceAll_of_not_occurs t _ _ h.1]
    exact ih h.2

/-- If the replacement template contains no dollar sign, the
ECMAScript substitution processing leaves it unchanged, whatever the
fuel. -/
theorem getSubstitutionGo_of_no_dollar (matched strBefore strAfter : List Char) :
    ∀ fuel rep, rep.all (fun c => c ≠ dollarChar) = true →
      getSubstitutionGo matched strBefore strAfter fuel rep = rep := by
  intro fuel
  induction fuel with
  | zero =>
    intro rep h
    cases rep with
    | nil => rfl
    | cons c rest => rfl
  | succ n ih =>
    intro rep h
    cases rep with
    | nil => rfl
    | cons c rest =>
      simp only [List.all_cons, Bool.and_eq_true, decide_eq_true_eq] at h
      simp only [getSubstitutionGo]
      rw [if_neg h.1, ih rest h.2]

/-- A dollar-free replacement is inserted literally. -/
theorem getSubstitution_of_no_dollar :
    ∀ matched strBefore strAfter rep,
      rep.all (fun c => c ≠ dollarChar) = true →
      getSubstitution matched strBefore strAfter rep = rep := by
  intro m b a rep h
  exact getSubstitutionGo_of_no_dollar m b a rep.length rep h

/-- Claim C7, counterexample: the code passes the coerced value to
`String.prototype.replaceAll` as a replacement string, which processes
the ECMAScript substitution patterns, so a coerced value containing
the matched-text pattern is not inserted literally — at this input
the placeholder survives substitution instead of being replaced by the
coerced string of the value. -/
theorem c7_counterexample :
    coerceToString (Value.str "$&") = "$&" ∧
    substituteVariables "Hello \x7b\x7bname\x7d\x7d" [("name", Value.str "$&")] =
      "Hello \x7b\x7bname\x7d\x7d" ∧
    substituteVariables "Hello \x7b\x7bname\x7d\x7d" [("name", Value.str "$&")] ≠
      "Hello $&" :=
  ⟨rfl, by decide, by decide⟩

/-- Claim C7 (amended): substitution replaces every occurrence of a
mapped placeholder with the coerced string of its value processed per
the ECMAScript replacement rules — a coerced string containing no
dollar sign is inserted literally, while the dollar patterns are
interpreted — where a string passes through coercion unchanged,
all-string arrays are joined with a comma and a space, and every other
value is JSON-serialized; unmatched placeholders are left verbatim,
and the function is a pure function of its two arguments. -/
theorem c7_substitution_contract :
    (∀ s, coerceToString (Value.str s) = s) ∧
    (∀ ss : List String, coerceToString (Value.arr (ss.map Value.str)) =
        String.intercalate ", " ss) ∧
    (∀ v, isPlainString v = false → isAllStringArray v = false →
        coerceToString v = jsonStringify v) ∧
    (∀ t vars, vars.all (fun kv => !(occursIn t (placeholderOf kv.1))) = true →
        substituteVariables t vars = t) ∧
    (∀ matched strBefore strAfter rep,
        rep.all (fun c => c ≠ dollarChar) = true →
        getSubstitution matched strBefore strAfter rep = rep) ∧
    substituteVariables "Hello \x7b\x7bname\x7d\x7d" [("name", Value.str "Alice")] =
      "Hello Alice" ∧
    substituteVariables "\x7b\x7bx\x7d\x7d and \x7b\x7bx\x7d\x7d!" [("x", Value.str "A")] =
      "A and A!" ∧
    substituteVariables "Hi \x7b\x7bmissing\x7d\x7d" [("name", Value.str "Alice")] =
      "Hi \x7b\x7bmissing\x7d\x7d" ∧
    substituteVariables "Price \x7b\x7bp\x7d\x7d" [("p", Value.str "$$5")] = "Price $5" ∧
    coerceToString (Value.arr [Value.str "a", Value.str "b"]) = "a, b" ∧
    coerceToString (Value.obj [("k", Value.str "v")]) = "\x7b\"k\":\"v\"\x7d" ∧
    coerceToString (Value.num 42) = "42" := by
  refine ⟨fun s => rfl, ?_, ?_, substituteVariables_of_no_placeholder,
    getSubstitution_of_no_dollar, ?_, ?_, ?_, ?_, ?_, ?_, ?_⟩
  · intro ss
    have h1 : (ss.map Value.str).all isStrValue = true := by
      simp [List.all_map, isStrValue, Function.comp]
    simp only [coerceToString, h1, if_true]
    congr 1
    rw [List.map_map]
    have hid : (strOfValue ∘ Value.str) = id := by
      funext s
      rfl
    rw [hid, List.map_id]
  · intro v h1 h2
    cases v with
    | str s => simp [isPlainString] at h1
    | arr l =>
      simp only [isAllStringArray] at h2
      simp [coerceToString, h2]
    | num n => rfl
    | bool b => rfl
    | null => rfl
    | obj fs => rfl
  · decide
  · decide
  · decide
  · decide
  · decide
  · decide
  · decide

/-- Witness for claim C7 at concrete inputs: a non-string non-array
value is JSON-serialized, a template containing only an unmapped
placeholder pattern is returned verbatim, and a dollar-free
replacement is inserted literally. -/
theorem c7_substitution_contract_witness :
    (isPlainString Value.null = false ∧ isAllStringArray Value.null = false ∧
      coerceToString Value.null = jsonStringify Value.null) ∧
    ([("k", Value.bool true)].all
        (fun kv => !(occursIn "plain text" (placeholderOf kv.1))) = true ∧
      substituteVariables "plain text" [("k", Value.bool true)] = "plain text") ∧
    (['o', 'k'].all (fun c => c ≠ dollarChar) = true ∧
      getSubstitution ['m'] ['b'] ['a'] ['o', 'k'] = ['o', 'k']) :=
  ⟨⟨rfl, rfl, c7_substitution_contract.2.2.1 Value.null rfl rfl⟩,
   ⟨by decide, c7_substitution_contract.2.2.2.1 "plain text"
      [("k", Value.bool true)] (by decide)⟩,
   ⟨by decide, c7_substitution_contract.2.2.2.2.1 ['m'] ['b'] ['a'] ['o', 'k']
      (by decide)⟩⟩

/-- Claim C6 (spec-modelled): the shared resilient ledger client
returns immediately on a 2xx at any attempt, retries a retryable status
up to 3 additional times (4 attempts total) with strictly increasing
backoff and a warning naming the attempt number and limit before each
retry, fails immediately with no retry on a non-retryable status
(including every 4xx), and after exhausting retries raises an error
naming the HTTP method, path, and final status.  -/
theorem c6_retry_policy :
    (∀ m p r, isSuccessStatus (r 0) = true →
        callWithRetry m p r = ⟨1, [], [], Except.ok ()⟩) ∧
    (∀ m p r, isSuccessStatus (r 0) = false → retryableStatus (r 0) = true →
        isSuccessStatus (r 1) = true →
        callWithRetry m p r = ⟨2, [retryWarningMsg 1 3], [retryDelayMs 0], Except.ok ()⟩) ∧
    (∀ m p r, isSuccessStatus (r 0) = false → retryableStatus (r 0) = false →
        callWithRetry m p r = ⟨1, [], [], Except.error (ledgerErrorMsg m p (r 0))⟩) ∧
    (∀ m p r, (∀ i, i ≤ 3 → isSuccessStatus (r i) = false ∧ retryableStatus (r i) = true) →
        callWithRetry m p r =
          ⟨4, [retryWarningMsg 1 3, retryWarningMsg 2 3, retryWarningMsg 3 3],
           [retryDelayMs 0, retryDelayMs 1, retryDelayMs 2],
           Except.error (ledgerErrorMsg m p (r 3))⟩) ∧
    (∀ n, retryDelayMs n < retryDelayMs (n + 1)) ∧
    (∀ s, 400 ≤ s → s < 500 → retryableStatus s = false) := by
  refine ⟨?_, ?_, ?_, ?_, ?_, ?_⟩
  · intro m p r h
    simp [callWithRetry, retryLoop, h]
  · intro m p r h0 h0r h1
    simp [callWithRetry, retryLoop, h0, h0r, h1]
  · intro m p r h0 h0r
    simp [callWithRetry, retryLoop, h0, h0r]
  · intro m p r h
    have h0 := h 0 (by omega)
    have h1 := h 1 (by omega)
    have h2 := h 2 (by omega)
    have h3 := h 3 (by omega)
    simp [callWithRetry, retryLoop, h0.1, h0.2, h1.1, h1.2, h2.1, h2.2, h3.1, h3.2]
  · intro n
    have h2 : 0 < 2 ^ n := pow_pos (by norm_num) n
    calc retryDelayMs n = 500 * 2 ^ n := rfl
      _ < 500 * 2 ^ n * 2 := by omega
      _ = 500 * 2 ^ (n + 1) := by ring
      _ = retryDelayMs (n + 1) := rfl
  · intro s h1 h2
    simp only [retryableStatus, Bool.or_eq_false_iff, Bool.and_eq_false_iff,
      beq_eq_false_iff_ne, decide_eq_false_iff_not]
    omega

/-- Witness for claim C6 at concrete status schedules: immediate
success, one retry then success, immediate 400 failure, and four
retryable failures exhausting the retries. -/
theorem c6_retry_policy_witness :
    (isSuccessStatus ((fun _ => 200) 0) = true ∧
      callWithRetry "POST" "/v1/runs" (fun _ => 200) = ⟨1, [], [], Except.ok ()⟩) ∧
    (callWithRetry "POST" "/v1/runs/run-1/costs" (fun i => if i = 0 then 502 else 200) =
      ⟨2, [retryWarningMsg 1 3], [retryDelayMs 0], Except.ok ()⟩) ∧
    (callWithRetry "GET" "/v1/runs/nonexistent" (fun _ => 404) =
      ⟨1, [], [], Except.error (ledgerErrorMsg "GET" "/v1/runs/nonexistent" 404)⟩) ∧
    (callWithRetry "PATCH" "/v1/runs/run-1" (fun _ => 502) =
      ⟨4, [retryWarningMsg 1 3, retryWarningMsg 2 3, retryWarningMsg 3 3],
       [retryDelayMs 0, retryDelayMs 1, retryDelayMs 2],
       Except.error (ledgerErrorMsg "PATCH" "/v1/runs/run-1" 502)⟩) :=
  ⟨⟨rfl, c6_retry_policy.1 "POST" "/v1/runs" (fun _ => 200) rfl⟩,
   c6_retry_policy.2.1 "POST" "/v1/runs/run-1/costs" (fun i => if i = 0 then 502 else 200)
     rfl rfl rfl,
   c6_retry_policy.2.2.1 "GET" "/v1/runs/nonexistent" (fun _ => 404) rfl rfl,
   c6_retry_policy.2.2.2.1 "PATCH" "/v1/runs/run-1" (fun _ => 502)
     (by intro i hi; exact ⟨rfl, rfl⟩)⟩

/-- Every call in the trace of the best-effort ledger phase is a ledger
call, the run link-back, or the error-severity log entry. -/
theorem ledgerPhase_trace_mem (env : GenEnv) (i o : Nat) (rec : InsertedEmailRecord) :
    ∀ a ∈ (ledgerPhase env i o rec).1,
      isLedgerCall a = true ∨ a = Call.dbLinkRun ∨ a = Call.logCostTrackingError := by
  cases hcr : env.createRun with
  | error e => simp [ledgerPhase, hcr, isLedgerCall]
  | ok runId =>
    cases hlk : env.linkRun with
    | error e => simp [ledgerPhase, hcr, hlk, isLedgerCall]
    | ok u =>
      simp only [ledgerPhase, hcr, hlk]
      split
      · cases hur : env.updateRun <;> simp [hur, isLedgerCall]
      · cases hac : env.addCosts with
        | error e => simp [hac, isLedgerCall]
        | ok u2 => cases hur : env.updateRun <;> simp [hac, hur, isLedgerCall]

/-- The record returned by the best-effort ledger phase: when the run
creation and link-back both succeed, its `generationRunId` is the run
id; otherwise the record is unchanged. -/
theorem ledgerPhase_record_linked (env : GenEnv) (i o : Nat) (rec : InsertedEmailRecord)
    (runId : String) (hCr : env.createRun = Except.ok runId)
    (hLk : env.linkRun = Except.ok ()) :
    (ledgerPhase env i o rec).2 = { rec with generationRunId := some runId } := by
  simp only [ledgerPhase, hCr, hLk]
  split
  · cases hur : env.updateRun <;> simp [hur]
  · cases hac : env.addCosts with
    | error e => simp [hac]
    | ok u2 => cases hur : env.updateRun <;> simp [hac, hur]

/-- Claim C10: on an idempotent hit the `POST /generate` response is
built from the stored row with every nullable column defaulted — a
null subject becomes the empty string, a null sequence the empty list,
null token counts zero — so the public response fields are never null. -/
theorem c10_idempotent_hit_defaults (req : GenerateReq) (env : GenEnv)
    (k : String) (ex : StoredEmailGeneration)
    (h1 : req.idempotencyKey = some k) (h2 : env.idemLookup = Except.ok (some ex)) :
    (postGenerate req env).response =
      HttpResponse.ok
        { id := ex.id, subject := ex.subject.getD "", sequence := ex.sequence.getD []
          tokensInput := ex.tokensInput.getD 0, tokensOutput := ex.tokensOutput.getD 0 } := by
  simp [postGenerate, h1, h2]

/-- Witness for claim C10: a stored row whose output columns are all
null is returned with empty string, empty list and zero counts. -/
theorem c10_idempotent_hit_defaults_witness :
    sampleGenReqIdem.idempotencyKey = some "idem-key-1" ∧
    (postGenerate sampleGenReqIdem
        { okGenEnv with idemLookup := Except.ok (some sampleStoredNulls) }).response =
      HttpResponse.ok
        { id := "gen-0", subject := "", sequence := [], tokensInput := 0
          tokensOutput := 0 } :=
  ⟨rfl, by
    rw [c10_idempotent_hit_defaults sampleGenReqIdem
      { okGenEnv with idemLookup := Except.ok (some sampleStoredNulls) }
      "idem-key-1" sampleStoredNulls rfl rfl]
    rfl⟩

/-- Claim C4: in `POST /generate`, when `createRun` succeeds (and the
link-back write goes through) and a later ledger step — `addCosts` or
`updateRun` — throws, the stored generation record nevertheless already
carries `generationRunId = ` the id returned by `createRun`, because
the link-back is executed before any cost reporting. -/
theorem c4_run_link_durability (req : GenerateReq) (env : GenEnv)
    (tpl apiKey genId runId : String) (resp : ProviderResponse)
    (hIdem : req.idempotencyKey = none)
    (hProm : env.promptLookup = Except.ok (some tpl))
    (hKey : env.keyFetch = Except.ok apiKey)
    (hLlm : env.llm = Except.ok resp)
    (hIns : env.insert = Except.ok genId)
    (hCr : env.createRun = Except.ok runId)
    (hLk : env.linkRun = Except.ok ())
    (_hFail : exceptFailed env.addCosts = true ∨ exceptFailed env.updateRun = true) :
    ∃ rec, (postGenerate req env).record = some rec ∧
      rec.generationRunId = some runId := by
  simp only [postGenerate, hIdem, generateCore, hProm, hKey, hLlm, hIns]
  rw [ledgerPhase_record_linked env _ _ _ runId hCr hLk]
  exact ⟨_, rfl, rfl⟩

/-- Witness for claim C4: with a failing `addCosts` the returned record
still links the created run. -/
theorem c4_run_link_durability_witness :
    (exceptFailed ({ okGenEnv with
        addCosts := Except.error "Cost name not registered" } : GenEnv).addCosts = true) ∧
    ∃ rec, (postGenerate sampleGenReq
        { okGenEnv with addCosts := Except.error "Cost name not registered" }).record =
          some rec ∧ rec.generationRunId = some "run-456" :=
  ⟨rfl, c4_run_link_durability sampleGenReq
    { okGenEnv with addCosts := Except.error "Cost name not registered" }
    "Write to \x7b\x7bname\x7d\x7d" "sk-1" "gen-789" "run-456" sampleResp
    rfl rfl rfl rfl rfl rfl rfl (Or.inl rfl)⟩

/-- Claim C5: an idempotent hit returns the stored fields and performs
no LLM call, no insert, and no ledger call; a request without a key
skips the lookup entirely and generates unconditionally; a key with no
match proceeds to normal generation (the same pipeline, response
included) rather than erroring. -/
theorem c5_idempotency :
    (∀ req env k ex, req.idempotencyKey = some k →
        env.idemLookup = Except.ok (some ex) →
        postGenerate req env =
          ⟨[Call.dbIdempotencyLookup],
           HttpResponse.ok
             { id := ex.id, subject := ex.subject.getD ""
               sequence := ex.sequence.getD [], tokensInput := ex.tokensInput.getD 0
               tokensOutput := ex.tokensOutput.getD 0 },
           none⟩ ∧
        Call.llmCall ∉ (postGenerate req env).trace ∧
        Call.dbInsert ∉ (postGenerate req env).trace ∧
        (postGenerate req env).trace.all (fun a => !isLedgerCall a) = true) ∧
    (∀ req env, req.idempotencyKey = none →
        postGenerate req env = generateCore req env) ∧
    (∀ req env, Call.dbIdempotencyLookup ∉ (generateCore req env).trace) ∧
    (∀ req env k, req.idempotencyKey = some k → env.idemLookup = Except.ok none →
        (postGenerate req env).trace =
          Call.dbIdempotencyLookup :: (generateCore req env).trace ∧
        (postGenerate req env).response = (generateCore req env).response) := by
  refine ⟨?_, ?_, ?_, ?_⟩
  · intro req env k ex h1 h2
    refine ⟨?_, ?_, ?_, ?_⟩ <;> simp [postGenerate, h1, h2, isLedgerCall]
  · intro req env h
    simp [postGenerate, h]
  · intro req env
    cases hp : env.promptLookup with
    | error e => simp [generateCore, hp]
    | ok op =>
      cases op with
      | none => simp [generateCore, hp]
      | some tpl =>
        cases hk : env.keyFetch with
        | error e => simp [generateCore, hp, hk]
        | ok apiKey =>
          cases hl : env.llm with
          | error e => simp [generateCore, hp, hk, hl]
          | ok resp =>
            cases hi : env.insert with
            | error e => simp [generateCore, hp, hk, hl, hi]
            | ok genId =>
              simp only [generateCore, hp, hk, hl, hi, GenerateOutcome.mk.injEq]
              intro hmem
              simp only [List.mem_append, List.mem_cons, List.not_mem_nil] at hmem
              rcases hmem with h | h
              · rcases h with h | h | h | h | h <;> exact absurd h (by decide)
              · rcases ledgerPhase_trace_mem env _ _ _ _ h with hl2 | hl2 | hl2 <;>
                  simp [isLedgerCall] at hl2
  · intro req env k h1 h2
    constructor <;> simp [postGenerate, h1, h2]

/-- Witness for claim C5: a concrete idempotent hit does no further
work, omitting the key skips the lookup, and a miss proceeds to
normal generation. -/
theorem c5_idempotency_witness :
    (postGenerate sampleGenReqIdem
        { okGenEnv with idemLookup := Except.ok (some sampleStoredNulls) } =
      ⟨[Call.dbIdempotencyLookup],
       HttpResponse.ok { id := "gen-0", subject := "", sequence := [], tokensInput := 0
                         tokensOutput := 0 },
       none⟩) ∧
    postGenerate sampleGenReq okGenEnv = generateCore sampleGenReq okGenEnv ∧
    (postGenerate sampleGenReqIdem okGenEnv).trace =
      Call.dbIdempotencyLookup :: (generateCore sampleGenReqIdem okGenEnv).trace := by
  refine ⟨?_, ?_, ?_⟩
  · have h := (c5_idempotency.1 sampleGenReqIdem
      { okGenEnv with idemLookup := Except.ok (some sampleStoredNulls) }
      "idem-key-1" sampleStoredNulls rfl rfl).1
    rw [h]
    rfl
  · exact c5_idempotency.2.1 sampleGenReq okGenEnv rfl
  · exact (c5_idempotency.2.2.2 sampleGenReqIdem okGenEnv "idem-key-1" rfl rfl).1

/-- In `POST /generate` no ledger call is attempted before the first
generation record insert. -/
theorem generateCore_ledgerOnlyAfterInsert (req : GenerateReq) (env : GenEnv) :
    ledgerOnlyAfterInsert (generateCore req env).trace = true := by
  cases hp : env.promptLookup with
  | error e =>
    simp [generateCore, hp, ledgerOnlyAfterInsert, isInsertCall, isLedgerCall]
  | ok op =>
    cases op with
    | none =>
      simp [generateCore, hp, ledgerOnlyAfterInsert, isInsertCall, isLedgerCall]
    | some tpl =>
      cases hk : env.keyFetch with
      | error e =>
        simp [generateCore, hp, hk, ledgerOnlyAfterInsert, isInsertCall, isLedgerCall]
      | ok apiKey =>
        cases hl : env.llm with
        | error e =>
          simp [generateCore, hp, hk, hl, ledgerOnlyAfterInsert, isInsertCall, isLedgerCall]
        | ok resp =>
          cases hi : env.insert with
          | error e =>
            simp [generateCore, hp, hk, hl, hi, ledgerOnlyAfterInsert, isInsertCall,
              isLedgerCall]
          | ok genId =>
            simp [generateCore, hp, hk, hl, hi, ledgerOnlyAfterInsert, isInsertCall,
              isLedgerCall]

/-- In `POST /generate`, when the record insert throws, the request
fails with no ledger call at all. -/
theorem generateCore_no_ledger_on_insert_error (req : GenerateReq) (env : GenEnv)
    (e : String) (hIns : env.insert = Except.error e) :
    (generateCore req env).trace.all (fun a => !isLedgerCall a) = true := by
  cases hp : env.promptLookup with
  | error e2 => simp [generateCore, hp, isLedgerCall]
  | ok op =>
    cases op with
    | none => simp [generateCore, hp, isLedgerCall]
    | some tpl =>
      cases hk : env.keyFetch with
      | error e2 => simp [generateCore, hp, hk, isLedgerCall]
      | ok apiKey =>
        cases hl : env.llm with
        | error e2 => simp [generateCore, hp, hk, hl, isLedgerCall]
        | ok resp => simp [generateCore, hp, hk, hl, hIns, isLedgerCall]

/-- The trace of `POST /generate` is the core pipeline trace, possibly
preceded by the idempotency lookup, or the lookup alone. -/
theorem postGenerate_trace_shape (req : GenerateReq) (env : GenEnv) :
    (postGenerate req env).trace = [Call.dbIdempotencyLookup] ∨
    (postGenerate req env).trace =
      Call.dbIdempotencyLookup :: (generateCore req env).trace ∨
    (postGenerate req env).trace = (generateCore req env).trace := by
  rcases hik : req.idempotencyKey with _ | k
  · exact Or.inr (Or.inr (by simp [postGenerate, hik]))
  · rcases hid : env.idemLookup with e | o
    · exact Or.inl (by simp [postGenerate, hik, hid])
    · rcases o with _ | ex
      · exact Or.inr (Or.inl (by simp [postGenerate, hik, hid]))
      · exact Or.inl (by simp [postGenerate, hik, hid])

/-- In `POST /generate/content` the `createRun` ledger call precedes
any record insert, and the cost-reporting ledger calls follow the
record insert. -/
theorem content_trace_ordering (req : ContentReq) (env : ContentEnv) :
    insertOnlyAfterCreateRun (postGenerateContent req env).trace = true ∧
    costsOnlyAfterInsert (postGenerateContent req env).trace = true := by
  cases hk : env.keyFetch with
  | error e =>
    simp [postGenerateContent, hk, insertOnlyAfterCreateRun, costsOnlyAfterInsert,
      isCreateRunCall, isInsertCall, isCostReportCall]
  | ok apiKey =>
    cases hl : env.llm with
    | error e =>
      simp [postGenerateContent, hk, hl, insertOnlyAfterCreateRun, costsOnlyAfterInsert,
        isCreateRunCall, isInsertCall, isCostReportCall]
    | ok result =>
      cases hcr : env.createRun with
      | error e =>
        simp [postGenerateContent, hk, hl, hcr, insertOnlyAfterCreateRun,
          costsOnlyAfterInsert, isCreateRunCall, isInsertCall, isCostReportCall]
      | ok rid =>
        cases hi : env.insert with
        | error e =>
          simp [postGenerateContent, hk, hl, hcr, hi, insertOnlyAfterCreateRun,
            costsOnlyAfterInsert, isCreateRunCall, isInsertCall, isCostReportCall]
        | ok genId =>
          simp only [postGenerateContent, hk, hl, hcr, hi]
          split
          · cases hur : env.updateRun <;>
              simp [hur, insertOnlyAfterCreateRun, costsOnlyAfterInsert,
                isCreateRunCall, isInsertCall, isCostReportCall]
          · cases hac : env.addCosts with
            | error e =>
              simp [hac, insertOnlyAfterCreateRun, costsOnlyAfterInsert,
                isCreateRunCall, isInsertCall, isCostReportCall]
            | ok u =>
              cases hur : env.updateRun <;>
                simp [hac, hur, insertOnlyAfterCreateRun, costsOnlyAfterInsert,
                  isCreateRunCall, isInsertCall, isCostReportCall]

/-- In `POST /generate/calendar` the `createRun` ledger call precedes
any record insert, and the cost-reporting ledger calls follow the
record insert. -/
theorem calendar_trace_ordering (req : CalendarReq) (env : CalendarEnv) :
    insertOnlyAfterCreateRun (postGenerateCalendar req env).trace = true ∧
    costsOnlyAfterInsert (postGenerateCalendar req env).trace = true := by
  cases hk : env.keyFetch with
  | error e =>
    simp [postGenerateCalendar, hk, insertOnlyAfterCreateRun, costsOnlyAfterInsert,
      isCreateRunCall, isInsertCall, isCostReportCall]
  | ok apiKey =>
    cases hl : env.llm with
    | error e =>
      simp [postGenerateCalendar, hk, hl, insertOnlyAfterCreateRun, costsOnlyAfterInsert,
        isCreateRunCall, isInsertCall, isCostReportCall]
    | ok result =>
      cases hcr : env.createRun with
      | error e =>
        simp [postGenerateCalendar, hk, hl, hcr, insertOnlyAfterCreateRun,
          costsOnlyAfterInsert, isCreateRunCall, isInsertCall, isCostReportCall]
      | ok rid =>
        cases hi : env.insert with
        | error e =>
          simp [postGenerateCalendar, hk, hl, hcr, hi, insertOnlyAfterCreateRun,
            costsOnlyAfterInsert, isCreateRunCall, isInsertCall, isCostReportCall]
        | ok genId =>
          simp only [postGenerateCalendar, hk, hl, hcr, hi]
          split
          · cases hur : env.updateRun <;>
              simp [hur, insertOnlyAfterCreateRun, costsOnlyAfterInsert,
                isCreateRunCall, isInsertCall, isCostReportCall]
          · cases hac : env.addCosts with
            | error e =>
              simp [hac, insertOnlyAfterCreateRun, costsOnlyAfterInsert,
                isCreateRunCall, isInsertCall, isCostReportCall]
            | ok u =>
              cases hur : env.updateRun <;>
                simp [hac, hur, insertOnlyAfterCreateRun, costsOnlyAfterInsert,
                  isCreateRunCall, isInsertCall, isCostReportCall]

/-- Claim C2, counterexample: on `POST /generate/content` with every
external call succeeding, the `createRun` ledger call is attempted
before the generation record is written, so the record write does not
precede every ledger interaction on every endpoint. -/
theorem c2_counterexample :
    (postGenerateContent sampleContentReq okContentEnv).trace =
      [Call.fetchKey, Call.llmCall, Call.ledgerCreateRun, Call.dbInsert,
       Call.ledgerAddCosts
         [{ costName := "anthropic-opus-4.6-tokens-input", quantity := 1500 },
          { costName := "anthropic-opus-4.6-tokens-output", quantity := 300 }],
       Call.ledgerUpdateRun] ∧
    ledgerOnlyAfterInsert (postGenerateContent sampleContentReq okContentEnv).trace =
      false := by
  exact ⟨rfl, rfl⟩

/-- Claim C2 (amended): on `POST /generate` the generation record
write precedes every ledger call, and a failed write prevents any
ledger call; on `POST /generate/content` and `POST /generate/calendar`
the `createRun` ledger call is attempted before the record write, and
only the cost-reporting ledger calls follow a successful write. -/
theorem c2_ledger_ordering :
    (∀ req env, ledgerOnlyAfterInsert (postGenerate req env).trace = true) ∧
    (∀ req env e, env.insert = Except.error e →
        (postGenerate req env).trace.all (fun a => !isLedgerCall a) = true) ∧
    (∀ req env, insertOnlyAfterCreateRun (postGenerateContent req env).trace = true) ∧
    (∀ req env, costsOnlyAfterInsert (postGenerateContent req env).trace = true) ∧
    (∀ req env, insertOnlyAfterCreateRun (postGenerateCalendar req env).trace = true) ∧
    (∀ req env, costsOnlyAfterInsert (postGenerateCalendar req env).trace = true) := by
  refine ⟨?_, ?_, ?_, ?_, ?_, ?_⟩
  · intro req env
    rcases postGenerate_trace_shape req env with h | h | h <;> rw [h]
    · rfl
    · simp only [ledgerOnlyAfterInsert, isInsertCall, isLedgerCall, Bool.not_false,
        Bool.true_and, if_false]
      exact generateCore_ledgerOnlyAfterInsert req env
    · exact generateCore_ledgerOnlyAfterInsert req env
  · intro req env e h
    rcases postGenerate_trace_shape req env with hs | hs | hs <;> rw [hs]
    · rfl
    · simp only [List.all_cons, Bool.and_eq_true]
      exact ⟨rfl, generateCore_no_ledger_on_insert_error req env e h⟩
    · exact generateCore_no_ledger_on_insert_error req env e h
  · intro req env
    exact (content_trace_ordering req env).1
  · intro req env
    exact (content_trace_ordering req env).2
  · intro req env
    exact (calendar_trace_ordering req env).1
  · intro req env
    exact (calendar_trace_ordering req env).2

/-- Witness for claim C2: on a concrete environment whose insert
throws, `POST /generate` performs no ledger call. -/
theorem c2_ledger_ordering_witness :
    ({ okGenEnv with insert := Except.error "db down" } : GenEnv).insert =
      Except.error "db down" ∧
    (postGenerate sampleGenReq
        { okGenEnv with insert := Except.error "db down" }).trace.all
      (fun a => !isLedgerCall a) = true :=
  ⟨rfl, c2_ledger_ordering.2.1 sampleGenReq
    { okGenEnv with insert := Except.error "db down" } "db down" rfl⟩

/-- If an attempted step of the best-effort ledger phase throws, the
error-severity log entry appears in its trace. -/
theorem ledgerPhase_logs_on_failure (env : GenEnv) (i o : Nat) (rec : InsertedEmailRecord)
    (hFail : (exceptFailed env.createRun || exceptFailed env.linkRun ||
      (exceptFailed env.addCosts && !(generateCostItems i o).isEmpty) ||
      exceptFailed env.updateRun) = true) :
    Call.logCostTrackingError ∈ (ledgerPhase env i o rec).1 := by
  cases hcr : env.createRun with
  | error e => simp [ledgerPhase, hcr]
  | ok rid =>
    cases hlk : env.linkRun with
    | error e => simp [ledgerPhase, hcr, hlk]
    | ok u =>
      rw [hcr, hlk] at hFail
      simp only [exceptFailed, Bool.false_or] at hFail
      simp only [ledgerPhase, hcr, hlk]
      split
      next hempty =>
        rw [hempty] at hFail
        simp only [Bool.not_true, Bool.and_false, Bool.false_or] at hFail
        cases hur : env.updateRun with
        | error e => simp [hur]
        | ok u2 =>
          rw [hur] at hFail
          simp [exceptFailed] at hFail
      next hempty =>
        have hempty2 : (generateCostItems i o).isEmpty = false := by
          cases hx : (generateCostItems i o).isEmpty
          · rfl
          · exact absurd hx hempty
        rw [hempty2] at hFail
        simp only [Bool.not_false, Bool.and_true] at hFail
        cases hac : env.addCosts with
        | error e => simp [hac]
        | ok u2 =>
          rw [hac] at hFail
          simp only [exceptFailed, Bool.false_or] at hFail
          cases hur : env.updateRun with
          | error e => simp [hur]
          | ok u3 =>
            rw [hur] at hFail
            simp [exceptFailed] at hFail

/-- Claim C3: when an attempted ledger step throws after a successful
LLM generation, `POST /generate` logs at error severity and still
responds 200 with the generated content, while the identical ledger
failure on `POST /generate/content` and `POST /generate/calendar`
makes the whole request respond 500. -/
theorem c3_failure_policy_split :
    (∀ req env tpl apiKey resp genId,
        (req.idempotencyKey = none ∨ env.idemLookup = Except.ok none) →
        env.promptLookup = Except.ok (some tpl) →
        env.keyFetch = Except.ok apiKey →
        env.llm = Except.ok resp →
        env.insert = Except.ok genId →
        (exceptFailed env.createRun || exceptFailed env.linkRun ||
         (exceptFailed env.addCosts &&
           !(generateCostItems resp.inputTokens resp.outputTokens).isEmpty) ||
         exceptFailed env.updateRun) = true →
        (postGenerate req env).response =
          HttpResponse.ok
            { id := genId
              subject := (generateFromTemplate apiKey tpl req.vars resp).subject
              sequence := (generateFromTemplate apiKey tpl req.vars resp).sequence
              tokensInput := resp.inputTokens
              tokensOutput := resp.outputTokens } ∧
        Call.logCostTrackingError ∈ (postGenerate req env).trace) ∧
    (∀ req env apiKey result,
        env.keyFetch = Except.ok apiKey →
        env.llm = Except.ok result →
        (exceptFailed env.createRun = true ∨
         ((∃ genId, env.insert = Except.ok genId) ∧
          ((exceptFailed env.addCosts &&
             !(contentCostItems result.tokensInput result.tokensOutput).isEmpty) ||
           exceptFailed env.updateRun) = true)) →
        ∃ e, (postGenerateContent req env).response = HttpResponse.serverError e) ∧
    (∀ req env apiKey result,
        env.keyFetch = Except.ok apiKey →
        env.llm = Except.ok result →
        (exceptFailed env.createRun = true ∨
         ((∃ genId, env.insert = Except.ok genId) ∧
          ((exceptFailed env.addCosts &&
             !(contentCostItems result.tokensInput result.tokensOutput).isEmpty) ||
           exceptFailed env.updateRun) = true)) →
        ∃ e, (postGenerateCalendar req env).response = HttpResponse.serverError e) := by
  refine ⟨?_, ?_, ?_⟩
  · intro req env tpl apiKey resp genId h0 h1 h2 h3 h4 hFail
    have hcore : (generateCore req env).response =
        HttpResponse.ok
          { id := genId
            subject := (generateFromTemplate apiKey tpl req.vars resp).subject
            sequence := (generateFromTemplate apiKey tpl req.vars resp).sequence
            tokensInput := resp.inputTokens
            tokensOutput := resp.outputTokens } ∧
        Call.logCostTrackingError ∈ (generateCore req env).trace := by
      constructor
      · simp only [generateCore, h1, h2, h3, h4]
        rfl
      · simp only [generateCore, h1, h2, h3, h4]
        simp only [List.mem_append]
        exact Or.inr (ledgerPhase_logs_on_failure env _ _ _ hFail)
    rcases hik : req.idempotencyKey with _ | k
    · have hpe : postGenerate req env = generateCore req env := by
        simp [postGenerate, hik]
      rw [hpe]
      exact hcore
    · rcases h0 with h0 | h0
      · rw [hik] at h0
        cases h0
      · have hpe : postGenerate req env =
            ⟨Call.dbIdempotencyLookup :: (generateCore req env).trace,
             (generateCore req env).response, (generateCore req env).record⟩ := by
          simp [postGenerate, hik, h0]
        rw [hpe]
        exact ⟨hcore.1, List.mem_cons_of_mem _ hcore.2⟩
  · intro req env apiKey result h1 h2 h3
    rcases h3 with h3 | ⟨⟨genId, hIns⟩, h3⟩
    · cases hcx : env.createRun with
      | error e => exact ⟨e, by simp [postGenerateContent, h1, h2, hcx]⟩
      | ok rid =>
        rw [hcx] at h3
        simp [exceptFailed] at h3
    · cases hcx : env.createRun with
      | error e => exact ⟨e, by simp [postGenerateContent, h1, h2, hcx]⟩
      | ok rid =>
        simp only [postGenerateContent, h1, h2, hcx, hIns]
        split
        next hempty =>
          rw [hempty] at h3
          simp only [Bool.not_true, Bool.and_false, Bool.false_or] at h3
          cases hur : env.updateRun with
          | error e => exact ⟨e, by simp [hur]⟩
          | ok u =>
            rw [hur] at h3
            simp [exceptFailed] at h3
        next hempty =>
          have hempty2 : (contentCostItems result.tokensInput result.tokensOutput).isEmpty
              = false := by
            cases hx : (contentCostItems result.tokensInput result.tokensOutput).isEmpty
            · rfl
            · exact absurd hx hempty
          rw [hempty2] at h3
          simp only [Bool.not_false, Bool.and_true] at h3
          cases hac : env.addCosts with
          | error e => exact ⟨e, by simp [hac]⟩
          | ok u =>
            rw [hac] at h3
            simp only [exceptFailed, Bool.false_or] at h3
            cases hur : env.updateRun with
            | error e => exact ⟨e, by simp [hac, hur]⟩
            | ok u2 =>
              rw [hur] at h3
              simp [exceptFailed] at h3
  · intro req env apiKey result h1 h2 h3
    rcases h3 with h3 | ⟨⟨genId, hIns⟩, h3⟩
    · cases hcx : env.createRun with
      | error e => exact ⟨e, by simp [postGenerateCalendar, h1, h2, hcx]⟩
      | ok rid =>
        rw [hcx] at h3
        simp [exceptFailed] at h3
    · cases hcx : env.createRun with
      | error e => exact ⟨e, by simp [postGenerateCalendar, h1, h2, hcx]⟩
      | ok rid =>
        simp only [postGenerateCalendar, h1, h2, hcx, hIns]
        split
        next hempty =>
          rw [hempty] at h3
          simp only [Bool.not_true, Bool.and_false, Bool.false_or] at h3
          cases hur : env.updateRun with
          | error e => exact ⟨e, by simp [hur]⟩
          | ok u =>
            rw [hur] at h3
            simp [exceptFailed] at h3
        next hempty =>
          have hempty2 : (contentCostItems result.tokensInput result.tokensOutput).isEmpty
              = false := by
            cases hx : (contentCostItems result.tokensInput result.tokensOutput).isEmpty
            · rfl
            · exact absurd hx hempty
          rw [hempty2] at h3
          simp only [Bool.not_false, Bool.and_true] at h3
          cases hac : env.addCosts with
          | error e => exact ⟨e, by simp [hac]⟩
          | ok u =>
            rw [hac] at h3
            simp only [exceptFailed, Bool.false_or] at h3
            cases hur : env.updateRun with
            | error e => exact ⟨e, by simp [hac, hur]⟩
            | ok u2 =>
              rw [hur] at h3
              simp [exceptFailed] at h3

/-- Witness for claim C3: with a failing `addCosts`, `POST /generate`
still responds 200 and logs, while `POST /generate/content` (failing
`addCosts`) and `POST /generate/calendar` (failing `createRun`)
respond 500. -/
theorem c3_failure_policy_split_witness :
    ((postGenerate sampleGenReq
        { okGenEnv with addCosts := Except.error "boom" }).response =
      HttpResponse.ok
        { id := "gen-789"
          subject := (generateFromTemplate "sk-1" "Write to \x7b\x7bname\x7d\x7d" []
            sampleResp).subject
          sequence := (generateFromTemplate "sk-1" "Write to \x7b\x7bname\x7d\x7d" []
            sampleResp).sequence
          tokensInput := 1500, tokensOutput := 300 } ∧
      Call.logCostTrackingError ∈ (postGenerate sampleGenReq
        { okGenEnv with addCosts := Except.error "boom" }).trace) ∧
    (∃ e, (postGenerateContent sampleContentReq
        { okContentEnv with addCosts := Except.error "boom" }).response =
      HttpResponse.serverError e) ∧
    (∃ e, (postGenerateCalendar sampleCalReq
        { okCalendarEnv with createRun := Except.error "ledger down" }).response =
      HttpResponse.serverError e) := by
  refine ⟨?_, ?_, ?_⟩
  · exact c3_failure_policy_split.1 sampleGenReq
      { okGenEnv with addCosts := Except.error "boom" }
      "Write to \x7b\x7bname\x7d\x7d" "sk-1" sampleResp "gen-789"
      (Or.inl rfl) rfl rfl rfl rfl (by decide)
  · exact c3_failure_policy_split.2.1 sampleContentReq
      { okContentEnv with addCosts := Except.error "boom" } "sk-1" sampleContentResult
      rfl rfl (Or.inr ⟨⟨"gen-789", rfl⟩, by decide⟩)
  · exact c3_failure_policy_split.2.2 sampleCalReq
      { okCalendarEnv with createRun := Except.error "ledger down" } "sk-1" sampleCalResult
      rfl rfl (Or.inl rfl)

/-- Claim C8: a generation that reaches cost reporting submits exactly
one cost line item per non-zero token count — one for input and one
for output, each named for the provider/model pair and direction, with
the raw token count as quantity — a zero count produces no item, and
when both counts are zero `addCosts` is not called at all (shown for
both the template endpoint and the content endpoint). -/
theorem c8_cost_items :
    (∀ i o, ((generateCostItems i o).length =
        (if i ≠ 0 then 1 else 0) + (if o ≠ 0 then 1 else 0)) ∧
      (i ≠ 0 → ({ costName := "anthropic-sonnet-4.6-tokens-input", quantity := i } : CostItem)
          ∈ generateCostItems i o) ∧
      (o ≠ 0 → ({ costName := "anthropic-sonnet-4.6-tokens-output", quantity := o } : CostItem)
          ∈ generateCostItems i o) ∧
      (i = 0 → ∀ q, ({ costName := "anthropic-sonnet-4.6-tokens-input", quantity := q } : CostItem)
          ∉ generateCostItems i o) ∧
      (o = 0 → ∀ q, ({ costName := "anthropic-sonnet-4.6-tokens-output", quantity := q } : CostItem)
          ∉ generateCostItems i o)) ∧
    (∀ i o, ((contentCostItems i o).length =
        (if i ≠ 0 then 1 else 0) + (if o ≠ 0 then 1 else 0)) ∧
      (i ≠ 0 → ({ costName := "anthropic-opus-4.6-tokens-input", quantity := i } : CostItem)
          ∈ contentCostItems i o) ∧
      (o ≠ 0 → ({ costName := "anthropic-opus-4.6-tokens-output", quantity := o } : CostItem)
          ∈ contentCostItems i o) ∧
      (i = 0 → ∀ q, ({ costName := "anthropic-opus-4.6-tokens-input", quantity := q } : CostItem)
          ∉ contentCostItems i o) ∧
      (o = 0 → ∀ q, ({ costName := "anthropic-opus-4.6-tokens-output", quantity := q } : CostItem)
          ∉ contentCostItems i o)) ∧
    (∀ req env tpl apiKey resp genId runId,
      req.idempotencyKey = none →
      env.promptLookup = Except.ok (some tpl) →
      env.keyFetch = Except.ok apiKey →
      env.llm = Except.ok resp →
      env.insert = Except.ok genId →
      env.createRun = Except.ok runId →
      env.linkRun = Except.ok () →
      ((resp.inputTokens = 0 ∧ resp.outputTokens = 0 →
          ∀ its, Call.ledgerAddCosts its ∉ (postGenerate req env).trace) ∧
       (¬(resp.inputTokens = 0 ∧ resp.outputTokens = 0) →
          Call.ledgerAddCosts (generateCostItems resp.inputTokens resp.outputTokens) ∈
            (postGenerate req env).trace))) ∧
    (∀ req env apiKey result genId runId,
      env.keyFetch = Except.ok apiKey →
      env.llm = Except.ok result →
      env.createRun = Except.ok runId →
      env.insert = Except.ok genId →
      ((result.tokensInput = 0 ∧ result.tokensOutput = 0 →
          ∀ its, Call.ledgerAddCosts its ∉ (postGenerateContent req env).trace) ∧
       (¬(result.tokensInput = 0 ∧ result.tokensOutput = 0) →
          Call.ledgerAddCosts (contentCostItems result.tokensInput result.tokensOutput) ∈
            (postGenerateContent req env).trace))) := by
  refine ⟨?_, ?_, ?_, ?_⟩
  · intro i o
    by_cases hi : i = 0 <;> by_cases ho : o = 0 <;>
      refine ⟨?_, ?_, ?_, ?_, ?_⟩ <;>
      simp [generateCostItems, hi, ho, CostItem.mk.injEq]
  · intro i o
    by_cases hi : i = 0 <;> by_cases ho : o = 0 <;>
      refine ⟨?_, ?_, ?_, ?_, ?_⟩ <;>
      simp [contentCostItems, hi, ho, CostItem.mk.injEq]
  · intro req env tpl apiKey resp genId runId h0 h1 h2 h3 h4 h5 h6
    have htok1 : (generateFromTemplate apiKey tpl req.vars resp).tokensInput =
        resp.inputTokens := rfl
    have htok2 : (generateFromTemplate apiKey tpl req.vars resp).tokensOutput =
        resp.outputTokens := rfl
    constructor
    · rintro ⟨hi, ho⟩ its
      have hempty : generateCostItems resp.inputTokens resp.outputTokens = [] := by
        simp [generateCostItems, hi, ho]
      simp only [postGenerate, h0, generateCore, h1, h2, h3, h4, ledgerPhase, h5, h6,
        htok1, htok2, hempty, List.isEmpty_nil]
      cases hur : env.updateRun <;> simp [hur]
    · intro hne
      have hnonempty : (generateCostItems resp.inputTokens resp.outputTokens).isEmpty
          = false := by
        by_cases hi : resp.inputTokens = 0
        · have ho : resp.outputTokens ≠ 0 := fun hc => hne ⟨hi, hc⟩
          simp [generateCostItems, hi, ho]
        · simp [generateCostItems, hi, List.cons_append, List.isEmpty_cons]
      simp only [postGenerate, h0, generateCore, h1, h2, h3, h4, ledgerPhase, h5, h6,
        htok1, htok2, hnonempty]
      cases hac : env.addCosts with
      | error e => simp [hac]
      | ok u => cases hur : env.updateRun <;> simp [hac, hur]
  · intro req env apiKey result genId runId h1 h2 h3 h4
    constructor
    · rintro ⟨hi, ho⟩ its
      have hempty : contentCostItems result.tokensInput result.tokensOutput = [] := by
        simp [contentCostItems, hi, ho]
      simp only [postGenerateContent, h1, h2, h3, h4, hempty, List.isEmpty_nil]
      cases hur : env.updateRun <;> simp [hur]
    · intro hne
      have hnonempty : (contentCostItems result.tokensInput result.tokensOutput).isEmpty
          = false := by
        by_cases hi : result.tokensInput = 0
        · have ho : result.tokensOutput ≠ 0 := fun hc => hne ⟨hi, hc⟩
          simp [contentCostItems, hi, ho]
        · simp [contentCostItems, hi, List.cons_append, List.isEmpty_cons]
      simp only [postGenerateContent, h1, h2, h3, h4, hnonempty]
      cases hac : env.addCosts with
      | error e => simp [hac]
      | ok u => cases hur : env.updateRun <;> simp [hac, hur]

/-- Witness for claim C8: with 1500 input and 300 output tokens exactly
the two named items are submitted on `POST /generate`, and a generation
with zero tokens on both counts submits no `addCosts` call at all. -/
theorem c8_cost_items_witness :
    Call.ledgerAddCosts
        [{ costName := "anthropic-sonnet-4.6-tokens-input", quantity := 1500 },
         { costName := "anthropic-sonnet-4.6-tokens-output", quantity := 300 }] ∈
      (postGenerate sampleGenReq okGenEnv).trace ∧
    (∀ its, Call.ledgerAddCosts its ∉
      (postGenerate sampleGenReq
        { okGenEnv with
            llm := Except.ok { reply := sampleReply, inputTokens := 0,
                               outputTokens := 0 } }).trace) := by
  constructor
  · exact (c8_cost_items.2.2.1 sampleGenReq okGenEnv "Write to \x7b\x7bname\x7d\x7d"
      "sk-1" sampleResp "gen-789" "run-456" rfl rfl rfl rfl rfl rfl rfl).2
      (by decide)
  · exact (c8_cost_items.2.2.1 sampleGenReq
      { okGenEnv with
          llm := Except.ok { reply := sampleReply, inputTokens := 0, outputTokens := 0 } }
      "Write to \x7b\x7bname\x7d\x7d" "sk-1"
      { reply := sampleReply, inputTokens := 0, outputTokens := 0 }
      "gen-789" "run-456" rfl rfl rfl rfl rfl rfl rfl).1 ⟨rfl, rfl⟩
